import Mathlib

/-!
Verification of the `vad_placefile` wind-profile decoder and its derived
wind mathematics, as a shallow embedding in Lean 4.

The embedding models the Rust sources:
* `src/vad_params.rs` — polar/Cartesian wind vectors, piecewise-linear
  interpolation, layer mean wind, wind shear;
* `src/vad_file.rs` — the NEXRAD level-3 (product 48) byte-stream decoder
  and the tabular-page profile extractor.

Modelling conventions:
* `f32` is modelled by `ℝ` (exact real arithmetic; float rounding and the
  special values NaN/±inf are outside the model, and no claim below
  depends on them).
* Rust `Option`-returning wind math is modelled by `WRes` whose third
  constructor `panic` represents an aborted computation (out-of-bounds
  index, failed `assert!`, `Option::unwrap` on `None`).
* The byte decoder is modelled over `List ℕ` (each entry one `u8`,
  reduced mod 256) with `Except DErr`, where the `assert!` on the product
  code is modelled by the fatal condition `DErr.productCodeMismatch`.
-/

namespace VWP

open scoped Classical

/-- Result of a Rust computation returning `Option<T>` that can also abort:
`ok` = `Some`, `absent` = `None`, `panic` = aborted (index out of bounds,
assertion failure, `unwrap` of `None`). -/
inductive WRes (α : Type) where
  | ok (a : α)
  | absent
  | panic
deriving Repr

/-- `f32::to_radians`: multiply by π/180 (`vad_params.rs`, used at lines 52–53, 113, 120). -/
noncomputable def toRadians (x : ℝ) : ℝ := x * (Real.pi / 180)

/-- `f32::to_degrees`: multiply by 180/π (`vad_params.rs` line 23). -/
noncomputable def toDegrees (x : ℝ) : ℝ := x * (180 / Real.pi)

/-- `f32::atan2`: `y.atan2 x` is the angle of the point `(x, y)`, in (−π, π],
modelled by the principal argument of the complex number `x + y·i`. -/
noncomputable def atan2 (y x : ℝ) : ℝ := Complex.arg ⟨x, y⟩

/-- `struct Vector(f32, f32)` — polar wind vector (direction in degrees,
meteorological "from" convention; speed). `vad_params.rs` line 3. -/
structure Vector where
  dir : ℝ
  spd : ℝ

/-- `struct Comp(f32, f32)` — Cartesian components (u eastward, v northward).
`vad_params.rs` line 4. -/
structure Comp where
  u : ℝ
  v : ℝ

/-- `impl From<Vector> for Comp` (`vad_params.rs` lines 49–56):
`Comp(-spd·sin(dir in radians), -spd·cos(dir in radians))`. -/
noncomputable def Vector.toComp (w : Vector) : Comp :=
  ⟨-w.spd * Real.sin (toRadians w.dir), -w.spd * Real.cos (toRadians w.dir)⟩

/-- `impl From<Comp> for Vector` (`vad_params.rs` lines 20–27):
`Vector(90 − atan2(−v, −u) in degrees, hypot u v)`. -/
noncomputable def Comp.toVector (c : Comp) : Vector :=
  ⟨90 - toDegrees (atan2 (-c.v) (-c.u)), Real.sqrt (c.u ^ 2 + c.v ^ 2)⟩

/-- `impl Sub for Comp` (`vad_params.rs` lines 65–70): element-wise difference. -/
def Comp.sub (a b : Comp) : Comp := ⟨a.u - b.u, a.v - b.v⟩

/-- `struct VadMessage` (`vad_params.rs` lines 78–83). -/
structure VadMessage where
  wind_dir : ℝ
  wind_spd : ℝ
  altitude : ℝ

/-- `struct VadProfile` (`vad_params.rs` lines 91–93). -/
structure VadProfile where
  prof : List VadMessage

/-- `VadProfile::altitude` (`vad_params.rs` lines 106–108). -/
def VadProfile.altitude (p : VadProfile) : List ℝ := p.prof.map (·.altitude)

/-- `VadProfile::u` (`vad_params.rs` lines 110–115): per-message eastward component. -/
noncomputable def VadProfile.u (p : VadProfile) : List ℝ :=
  p.prof.map (fun m => -m.wind_spd * Real.sin (toRadians m.wind_dir))

/-- `VadProfile::v` (`vad_params.rs` lines 117–122): per-message northward component. -/
noncomputable def VadProfile.v (p : VadProfile) : List ℝ :=
  p.prof.map (fun m => -m.wind_spd * Real.cos (toRadians m.wind_dir))

/-- The forward scan `xp.iter().enumerate().find(|(_, &b)| x >= b)` of
`interp` (`vad_params.rs` line 199): first index `i` (counting from the
accumulator) whose breakpoint satisfies `x ≥ xp[i]`. -/
noncomputable def findBracket (x : ℝ) : List ℝ → ℕ → Option ℕ
  | [], _ => none
  | b :: bs, i => if x ≥ b then some i else findBracket x bs (i + 1)

/-- `fn interp` (`vad_params.rs` lines 192–205). The `assert!` on mismatched
lengths, the indexing `xp[0]` on an empty slice and the indexing
`yp[i+1]`/`xp[i+1]` past the end all abort (`WRes.panic`). `x` is clamped
below to `xp[0]`, then the forward scan picks the first `i` with
`x ≥ xp[i]` and the result is the linear interpolation between points `i`
and `i+1`. -/
noncomputable def interp (x : ℝ) (xp yp : List ℝ) : WRes ℝ :=
  if xp.length ≠ yp.length then .panic
  else
    match xp with
    | [] => .panic
    | x0 :: _ =>
      let x' := if x < x0 then x0 else x
      match findBracket x' xp 0 with
      | none => .absent
      | some i =>
        match xp.get? i, xp.get? (i + 1), yp.get? i, yp.get? (i + 1) with
        | some xi, some xi1, some yi, some yi1 =>
          .ok (yi + (x' - xi) * (yi1 - yi) / (xi1 - xi))
        | _, _, _, _ => .panic

/-- `VadProfile::interp_height` (`vad_params.rs` lines 124–129): interpolate
`u` then `v` at the given height, combining the two `?`-propagated options. -/
noncomputable def VadProfile.interp_height (p : VadProfile) (height : ℝ) : WRes Comp :=
  match interp height p.altitude p.u with
  | .ok uu =>
    match interp height p.altitude p.v with
    | .ok vv => .ok ⟨uu, vv⟩
    | .absent => .absent
    | .panic => .panic
  | .absent => .absent
  | .panic => .panic

/-- Rust `as u32` applied to a mathematically integral `f32` value:
truncation saturates into `[0, 2^32 − 1]` (negative values give 0). -/
def toU32 (z : ℤ) : ℕ := min z.toNat 4294967295

/-- The sample grid of `VadProfile::mean_wind` (`vad_params.rs` lines
136–138): `(prof[0].altitude.ceil() as u32 .. top as u32)` mapped through
`v as f32 / 1000.`.  Note the division by 1000 — the samples are the
integers of the range divided by 1000, not the integers themselves. -/
noncomputable def meanWindSamples (a0 top : ℝ) : List ℝ :=
  (List.range' (toU32 ⌈a0⌉) (toU32 ⌊top⌋ - toU32 ⌈a0⌉)).map (fun v => (v : ℝ) / 1000)

/-- The `map … .unwrap()` over the sample grid in `mean_wind`
(`vad_params.rs` lines 140–143): each sample is interpolated with
`interp_height`; `unwrap()` of a `None` interpolation aborts. -/
noncomputable def sampleComps (p : VadProfile) : List ℝ → WRes (List Comp)
  | [] => .ok []
  | x :: xs =>
    match p.interp_height x with
    | .ok c =>
      match sampleComps p xs with
      | .ok cs => .ok (c :: cs)
      | .absent => .absent
      | .panic => .panic
    | .absent => .panic
    | .panic => .panic

/-- `VadProfile::mean_wind` (`vad_params.rs` lines 131–152). Returns `None`
for an empty profile or when `top` is at or above the last altitude of the
profile. Otherwise samples `interp_height` on the grid of
`meanWindSamples`, and builds `Comp(Σv/n, Σu/n)` — note the swapped slots:
the mean of the `v` components is placed in the `u` slot and vice versa,
exactly as in the source — before converting to polar form. -/
noncomputable def VadProfile.mean_wind (p : VadProfile) (top : ℝ) : WRes Vector :=
  match p.prof with
  | [] => .absent
  | m0 :: _ =>
    match p.altitude.getLast? with
    | none => .absent
    | some lastAlt =>
      if top ≥ lastAlt then .absent
      else
        let xs := meanWindSamples m0.altitude top
        match sampleComps p xs with
        | .ok cs =>
          .ok (Comp.toVector ⟨(cs.map Comp.v).sum / (xs.length : ℝ),
                              (cs.map Comp.u).sum / (xs.length : ℝ)⟩)
        | .absent => .absent
        | .panic => .panic

/-- `VadProfile::wind_shear` (`vad_params.rs` lines 154–160): `None` for an
empty profile; otherwise the polar form of the component difference
`interp_height(top) − interp_height(bot)`, with each `?` propagating an
absent interpolation. -/
noncomputable def VadProfile.wind_shear (p : VadProfile) (bot top : ℝ) : WRes Vector :=
  match p.prof with
  | [] => .absent
  | _ :: _ =>
    match p.interp_height top with
    | .ok ct =>
      match p.interp_height bot with
      | .ok cb => .ok (Comp.toVector (ct.sub cb))
      | .absent => .absent
      | .panic => .panic
    | .absent => .absent
    | .panic => .panic

/-! ## Byte-stream decoder (`src/vad_file.rs`) -/

/-- Fatal decode conditions (spec §7). `productCodeMismatch` models the
`assert!(product_code == 48)` abort of `read_desc_block`;
`truncatedInput` models a failed `read_exact`; the two block-id variants
are `VadError::SymbologyBlockError` / `VadError::TabularBlockError`;
`fieldParseError` models a `?`-propagated `str::parse` failure in
`get_data`; `capacityOverflow` models the `vec![0u8; n]` allocation
panic when the requested buffer exceeds `isize::MAX` bytes (a Rust
abort, not an `io::Error`, carried in the model's error channel like the
product-code assert). -/
inductive DErr where
  | truncatedInput
  | productCodeMismatch
  | symbologyBlockError
  | tabularBlockError
  | fieldParseError
  | capacityOverflow
deriving DecidableEq, Repr

/-- The sequential reader: state-passing over the remaining byte list. -/
def DecodeM (α : Type) : Type := List ℕ → Except DErr (α × List ℕ)

instance : Monad DecodeM where
  pure a := fun s => .ok (a, s)
  bind m f := fun s =>
    match m s with
    | .error e => .error e
    | .ok (a, t) => f a t

theorem DecodeM.bind_apply {α β : Type} (m : DecodeM α) (f : α → DecodeM β) (s : List ℕ) :
    (m >>= f) s =
      match m s with
      | .error e => .error e
      | .ok (a, t) => f a t := rfl

theorem DecodeM.pure_apply {α : Type} (a : α) (s : List ℕ) :
    (pure a : DecodeM α) s = .ok (a, s) := rfl

/-- Abort decoding with a fatal condition. -/
def dfail {α : Type} (e : DErr) : DecodeM α := fun _ => .error e

/-- `read_exact` into a buffer of `n` bytes (the `read!` macro,
`vad_file.rs` lines 8–28): succeeds only when `n` bytes remain. -/
def readBytes (n : ℕ) : DecodeM (List ℕ) := fun s =>
  if n ≤ s.length then .ok (s.take n, s.drop n) else .error .truncatedInput

/-- `Read::read` into a zero-initialized `vec![0u8; n]` buffer (the
`read_vec!` macro, `vad_file.rs` lines 30–39).  Allocating a buffer of
more than `isize::MAX` bytes — which happens whenever a negative count
is sign-extended by `as usize` — is a guaranteed capacity-overflow panic
before any read; otherwise the read fills as many bytes as remain and
always succeeds — it does NOT fail on a short read. -/
def readUpTo (n : ℕ) : DecodeM (List ℕ) := fun s =>
  if n ≤ 2 ^ 63 - 1 then .ok (s.take n, s.drop n) else .error .capacityOverflow

/-- Big-endian unsigned value of a byte list (each byte reduced mod 256). -/
def beNat (bs : List ℕ) : ℕ := bs.foldl (fun acc b => acc * 256 + b % 256) 0

/-- Two's-complement reinterpretation of a `w`-bit unsigned value. -/
def toSigned (w : ℕ) (v : ℕ) : ℤ := if v < 2 ^ (w - 1) then (v : ℤ) else (v : ℤ) - 2 ^ w

/-- Rust `as usize` on a signed value: two's-complement into 64 bits. -/
def toUsize (z : ℤ) : ℕ := (z % 2 ^ 64).toNat

def readI8 : DecodeM ℤ := do
  let bs ← readBytes 1
  pure (toSigned 8 (beNat bs))

def readI16 : DecodeM ℤ := do
  let bs ← readBytes 2
  pure (toSigned 16 (beNat bs))

def readI32 : DecodeM ℤ := do
  let bs ← readBytes 4
  pure (toSigned 32 (beNat bs))

/-- `fn read_headers` (`vad_file.rs` lines 115–126): 30 header bytes, then
`i16, i16, i32, i32, i16, i16, i16`, all discarded. -/
def read_headers : DecodeM Unit := do
  let _ ← readBytes 30
  let _ ← readI16
  let _ ← readI16
  let _ ← readI32
  let _ ← readI32
  let _ ← readI16
  let _ ← readI16
  let _ ← readI16
  pure ()

/-- `fn read_symbology` (`vad_file.rs` lines 175–191): separator, block id
(must be 1), length, layer count, layer separator, payload byte count `n`,
then a `read_vec!` of `n as usize / 2` 16-bit words — i.e. up to
`(n as usize / 2) * 2` bytes, however many remain. -/
def read_symbology : DecodeM Unit := do
  let _ ← readI16
  let block_id ← readI16
  if block_id ≠ 1 then dfail .symbologyBlockError
  else do
    let _ ← readI32
    let _ ← readI16
    let _ ← readI16
    let layer_num_bytes ← readI32
    let _ ← readUpTo (toUsize layer_num_bytes / 2 * 2)
    pure ()

/-- A text line of a tabular page, as the raw `u8 as char` code points
(the `read_string!` macro, `vad_file.rs` lines 41–49). -/
abbrev Line := List Char

abbrev Page := List Line

/-- One page's line loop (`vad_file.rs` lines 235–240): read an `i16`
length; while it is not −1, read that many bytes as a line (a negative
length other than −1 is sign-extended by `as usize` into an enormous
read, which fails as truncated). `fuel` bounds the iteration count; each
iteration consumes at least the 2 bytes of the next length, so any fuel
larger than the stream length behaves as the unbounded loop. -/
def readLines : ℕ → DecodeM (List Line)
  | 0 => dfail .truncatedInput
  | fuel + 1 => do
    let num_chars ← readI16
    if num_chars = -1 then pure []
    else do
      let bs ← readBytes (toUsize num_chars)
      let rest ← readLines fuel
      pure ((bs.map (fun b => Char.ofNat (b % 256))) :: rest)

/-- The page loop of `read_tabular` (`vad_file.rs` lines 233–243). -/
def readPages (fuel : ℕ) : ℕ → DecodeM (List Page)
  | 0 => pure []
  | n + 1 => do
    let l ← readLines fuel
    let r ← readPages fuel n
    pure (l :: r)

/-- `fn read_tabular` (`vad_file.rs` lines 193–246): separator, block id
(must be 3), block size, 30 unknown bytes, an embedded copy of the
description-block field layout (all discarded), a separator, a page
count, then that many pages of length-prefixed lines. -/
def read_tabular (fuel : ℕ) : DecodeM (List Page) := do
  let _ ← readI16
  let block_id ← readI16
  if block_id ≠ 3 then dfail .tabularBlockError
  else do
    let _ ← readI32
    let _ ← readBytes 30
    let _ ← readI16
    let _ ← readI16
    let _ ← readI16
    let _ ← readI16
    let _ ← readI16
    let _ ← readI16
    let _ ← readI32
    let _ ← readI16
    let _ ← readI32
    let _ ← readBytes 54
    let _ ← readI8
    let _ ← readI8
    let _ ← readI32
    let _ ← readI32
    let _ ← readI32
    let _ ← readI16
    let num_pages ← readI16
    readPages fuel num_pages.toNat

/-- `fn read_desc_block` (`vad_file.rs` lines 128–173): separator,
latitude and longitude (÷1000), radar elevation, product code — the
`assert!` that it equals 48 is the fatal `productCodeMismatch` — then the
discarded mode/VCP/sequence fields, the scan date and time (combined into
the valid timestamp, modelled as seconds relative to 1969-12-31T00:00:00Z),
the discarded product date/time, 27 reserved words, version and
spot-blank bytes, and the three block offsets. A positive symbology
offset triggers an inline `read_symbology` before returning. -/
noncomputable def read_desc_block : DecodeM (ℤ × (ℝ × ℝ) × Bool) := do
  let _ ← readI16
  let lat ← readI32
  let lon ← readI32
  let _ ← readI16
  let product_code ← readI16
  if product_code ≠ 48 then dfail .productCodeMismatch
  else do
    let _ ← readI16
    let _ ← readI16
    let _ ← readI16
    let _ ← readI16
    let scan_date ← readI16
    let scan_time ← readI32
    let _ ← readI16
    let _ ← readI32
    let _ ← readBytes 54
    let _ ← readI8
    let _ ← readI8
    let offset_symbology ← readI32
    let _ ← readI32
    let offset_tabular ← readI32
    let time := scan_date * 86400 + scan_time
    if offset_symbology > 0 then do
      read_symbology
      pure (time, ((lat : ℝ) / 1000, (lon : ℝ) / 1000), decide (offset_tabular > 0))
    else
      pure (time, ((lat : ℝ) / 1000, (lon : ℝ) / 1000), decide (offset_tabular > 0))

/-! ## Profile extraction (`get_data`, `vad_file.rs` lines 77–113) -/

/-- Accumulator form of `str::split_whitespace`: split on whitespace
characters, producing no empty tokens. -/
def splitWSAux : List Char → List Char → List (List Char)
  | [], acc => if acc = [] then [] else [acc.reverse]
  | c :: cs, acc =>
    if c.isWhitespace then
      if acc = [] then splitWSAux cs [] else acc.reverse :: splitWSAux cs []
    else splitWSAux cs (c :: acc)

/-- `str::split_whitespace` over a line's characters. -/
def splitWhitespace (l : List Char) : List (List Char) := splitWSAux l []

/-- `str::trim`: drop whitespace from both ends. -/
def trim (l : List Char) : List Char :=
  ((l.dropWhile Char.isWhitespace).reverse.dropWhile Char.isWhitespace).reverse

/-- The literal scanned for by `get_data` (`vad_file.rs` line 80). -/
def vadHeader : Line := "VAD Algorithm Output".toList

/-- Decimal value of a digit run. -/
def digitsVal (cs : List Char) : ℕ := cs.foldl (fun a c => a * 10 + (c.toNat - 48)) 0

/-- Strip an optional leading sign, returning the sign as a factor. -/
def stripSign (cs : List Char) : ℚ × List Char :=
  match cs with
  | [] => (1, [])
  | c :: t => if c = '-' then (-1, t) else if c = '+' then (1, t) else (1, cs)

/-- Exponent suffix of the `f32` grammar: empty, or `(e|E) sign? digits`,
consuming the whole remainder. -/
def parseExp (cs : List Char) : Option ℤ :=
  match cs with
  | [] => some 0
  | c :: t =>
    if c = 'e' ∨ c = 'E' then
      let sd : ℤ × List Char :=
        match t with
        | [] => (1, [])
        | d :: u => if d = '-' then (-1, u) else if d = '+' then (1, u) else (1, t)
      let dig := sd.2.takeWhile Char.isDigit
      let rest := sd.2.dropWhile Char.isDigit
      if dig = [] ∨ rest ≠ [] then none else some (sd.1 * (digitsVal dig : ℤ))
    else none

/-- Split off a leading decimal point, if present. -/
def splitDot (cs : List Char) : Option (List Char) :=
  match cs with
  | [] => none
  | c :: t => if c = '.' then some t else none

/-- Model of `str::parse::<f32>` on finite decimal tokens: optional sign,
then `digits`, `digits.digits?` or `.digits`, with an optional exponent,
consuming the entire token.  The value is kept exact in `ℚ` (f32 rounding
is outside the model), and the inf/NaN spellings accepted by Rust are
outside the model (no claim involves them). -/
def parseF (cs : List Char) : Option ℚ :=
  let sc := stripSign cs
  let ip := sc.2.takeWhile Char.isDigit
  let cs2 := sc.2.dropWhile Char.isDigit
  match splitDot cs2 with
  | some cs3 =>
    let fp := cs3.takeWhile Char.isDigit
    let cs4 := cs3.dropWhile Char.isDigit
    if ip = [] ∧ fp = [] then none
    else
      match parseExp cs4 with
      | none => none
      | some e =>
        some (sc.1 * ((digitsVal ip : ℚ) + (digitsVal fp : ℚ) / 10 ^ fp.length) * (10 : ℚ) ^ e)
  | none =>
    if ip = [] then none
    else
      match parseExp cs2 with
      | none => none
      | some e => some (sc.1 * (digitsVal ip : ℚ) * (10 : ℚ) ^ e)

/-- Result of `get_data` and of the whole decode: a value, a `?`-returned
error, or an aborted computation (out-of-bounds indexing). -/
inductive DRes (α : Type) where
  | ok (a : α)
  | error (e : DErr)
  | panic
deriving Repr

/-- `4. / 3. * 6371.` — the effective earth radius (`vad_file.rs` line 89). -/
noncomputable def r_e : ℝ := 4 / 3 * 6371

/-- The altitude computation of `get_data` (`vad_file.rs` lines 96–100):
`√(r_e² + R² + 2·r_e·R·sin(elev in radians)) − r_e`. -/
noncomputable def vadAltitude (slant_range elev_angle : ℝ) : ℝ :=
  Real.sqrt (r_e ^ 2 + slant_range ^ 2
      + 2 * r_e * slant_range * Real.sin (toRadians elev_angle)) - r_e

/-- One data line of the loop body of `get_data` (`vad_file.rs` lines
87–107): split on whitespace; index 4 = direction, 5 = speed, 8 = slant
range (× 6076.1 / 3281, nautical miles to kilometers), 9 = elevation
angle.  An out-of-bounds index aborts; a failed parse is a `?`-returned
`fieldParseError`; indexing and parsing happen in source order. -/
noncomputable def parseLine (line : Line) : DRes VadMessage :=
  let values := splitWhitespace line
  match values.get? 4 with
  | none => .panic
  | some t4 =>
    match parseF t4 with
    | none => .error .fieldParseError
    | some d =>
      match values.get? 5 with
      | none => .panic
      | some t5 =>
        match parseF t5 with
        | none => .error .fieldParseError
        | some s =>
          match values.get? 8 with
          | none => .panic
          | some t8 =>
            match parseF t8 with
            | none => .error .fieldParseError
            | some r =>
              match values.get? 9 with
              | none => .panic
              | some t9 =>
                match parseF t9 with
                | none => .error .fieldParseError
                | some e =>
                  .ok ⟨(d : ℝ), (s : ℝ), vadAltitude ((r : ℝ) * 6076.1 / 3281) (e : ℝ)⟩

/-- The page loop of `get_data` (`vad_file.rs` lines 79–83): for each page,
`page[0]` aborts on an empty page; when the trimmed first line starts with
`"VAD Algorithm Output"`, the slice `page[3..]` aborts when the page has
fewer than 3 lines and otherwise contributes the lines from index 3 on. -/
def collectVadLines : List Page → DRes (List Line)
  | [] => .ok []
  | page :: rest =>
    match page with
    | [] => .panic
    | l0 :: _ =>
      if vadHeader.isPrefixOf (trim l0) then
        if page.length < 3 then .panic
        else
          match collectVadLines rest with
          | .ok ls => .ok (page.drop 3 ++ ls)
          | r => r
      else collectVadLines rest

/-- The data-line loop of `get_data` (`vad_file.rs` lines 87–107), in order:
the first aborting or erroring line decides the outcome. -/
noncomputable def parseLines : List Line → DRes (List VadMessage)
  | [] => .ok []
  | l :: ls =>
    match parseLine l with
    | .ok m =>
      match parseLines ls with
      | .ok ms => .ok (m :: ms)
      | r => r
    | .error e => .error e
    | .panic => .panic

/-- `fn get_data` (`vad_file.rs` lines 77–113): collect the data lines of
every VAD page, parse them, then sort the resulting profile by altitude
(`sort_by` with `partial_cmp`, a stable sort; its `unwrap` cannot abort in
the real-valued model, which has no NaN). -/
noncomputable def get_data (pages : List Page) : DRes VadProfile :=
  match collectVadLines pages with
  | .error e => .error e
  | .panic => .panic
  | .ok lines =>
    match parseLines lines with
    | .error e => .error e
    | .panic => .panic
    | .ok msgs => .ok ⟨List.insertionSort (fun a b => a.altitude ≤ b.altitude) msgs⟩

/-- `struct VadFile` (`vad_file.rs` lines 51–55), with the valid time in
seconds relative to 1969-12-31T00:00:00Z. -/
structure VadFile where
  data : VadProfile
  location : ℝ × ℝ
  time : ℤ

/-- The reader pipeline of `VadFile::from_reader` (`vad_file.rs` lines
58–66): headers, description block (which may consume an inline symbology
block), then — only when the tabular offset was positive — the tabular
block.  The line-loop fuel `s.length + 1` exceeds any possible number of
loop iterations, each of which consumes at least two bytes. -/
noncomputable def decodeStream (s : List ℕ) :
    Except DErr (((ℤ × (ℝ × ℝ) × Bool) × List Page) × List ℕ) :=
  (do
    read_headers
    let info ← read_desc_block
    let pages ← if info.2.2 then read_tabular (s.length + 1) else pure []
    pure (info, pages)) s

/-- `VadFile::from_reader` (`vad_file.rs` lines 57–75). -/
noncomputable def from_reader (s : List ℕ) : DRes VadFile :=
  match decodeStream s with
  | .error e => .error e
  | .ok (((time, loc, _), pages), _) =>
    match get_data pages with
    | .error e => .error e
    | .panic => .panic
    | .ok data => .ok ⟨data, loc, time⟩

/-! ## Claims -/

/-- For a nonempty breakpoint list the forward scan always stops at the
very first index tested whenever the (clamped) abscissa is at least the
first breakpoint. -/
theorem findBracket_cons_of_ge {x b : ℝ} (bs : List ℝ) (i : ℕ) (h : x ≥ b) :
    findBracket x (b :: bs) i = some i := by
  simp [findBracket, h]

/-- C1 (counterexample): for the ascending breakpoints `[0, 1]` with values
`[0, 1]`, the abscissa `2` is at or beyond the last breakpoint, yet
`interp` returns the extrapolated value `2`, not absent. -/
theorem c1_counterexample :
    interp (2 : ℝ) [0, 1] [0, 1] = WRes.ok 2 ∧ WRes.ok (2 : ℝ) ≠ WRes.absent := by
  constructor
  · have hb : findBracket (2 : ℝ) [0, 1] 0 = some 0 :=
      findBracket_cons_of_ge _ _ (by norm_num)
    simp only [interp]
    norm_num [hb]
  · intro h
    exact WRes.noConfusion h

/-- C1 (amended): for every ascending altitude array `x0 :: x1 :: xs` with
matching values `y0 :: y1 :: ys`, `interp` clamps `x` below to `x0` and
always returns the linear interpolation (or extrapolation) through the
first two points — the forward scan's first bracket is index 0 for every
abscissa, so the result is never absent, including for `x` at or beyond
the last breakpoint. -/
theorem c1_amended (x x0 x1 y0 y1 : ℝ) (xs ys : List ℝ)
    (hlen : xs.length = ys.length)
    (_hsort : List.Sorted (· < ·) (x0 :: x1 :: xs)) :
    interp x (x0 :: x1 :: xs) (y0 :: y1 :: ys) =
      WRes.ok (y0 + (max x0 x - x0) * (y1 - y0) / (x1 - x0)) := by
  rcases le_or_lt x0 x with hx | hx
  · have hb : findBracket x (x0 :: x1 :: xs) 0 = some 0 :=
      findBracket_cons_of_ge _ _ hx
    have hmax : max x0 x = x := max_eq_right hx
    simp only [interp]
    simp [hlen, if_neg (not_lt.mpr hx), hb, hmax]
  · have hb : findBracket x0 (x0 :: x1 :: xs) 0 = some 0 :=
      findBracket_cons_of_ge _ _ le_rfl
    have hmax : max x0 x = x0 := max_eq_left hx.le
    simp only [interp]
    simp [hlen, if_pos hx, hb, hmax]

/-- C1 (witness): a concrete in-range interpolation through the first
bracket. -/
theorem c1_witness : interp (1 / 2 : ℝ) [0, 1] [3, 5] = WRes.ok 4 := by
  have h := c1_amended (1 / 2) 0 1 3 5 [] [] rfl
    (by simp [List.sorted_cons])
  rw [h]
  norm_num

/-- Shared evaluation lemma: `interp` on a two-or-more-point breakpoint
list always interpolates through the first two points, after clamping. -/
theorem interp_eval (x x0 x1 y0 y1 : ℝ) (xs ys : List ℝ) (hlen : xs.length = ys.length) :
    interp x (x0 :: x1 :: xs) (y0 :: y1 :: ys) =
      WRes.ok (y0 + ((if x < x0 then x0 else x) - x0) * (y1 - y0) / (x1 - x0)) := by
  have hx' : (if x < x0 then x0 else x) ≥ x0 := by
    split
    · exact le_rfl
    · exact le_of_not_lt (by assumption)
  have hb : findBracket (if x < x0 then x0 else x) (x0 :: x1 :: xs) 0 = some 0 :=
    findBracket_cons_of_ge _ _ hx'
  simp only [interp]
  simp [hlen, hb]

/-- `interp` on a nonempty breakpoint list never returns absent: the
forward scan always finds index 0 once the abscissa has been clamped. -/
theorem interp_ne_absent (x x0 : ℝ) (xp yp : List ℝ) :
    interp x (x0 :: xp) yp ≠ WRes.absent := by
  simp only [interp]
  by_cases hlen : (x0 :: xp).length ≠ yp.length
  · have hlen' : ¬(xp.length + 1 = yp.length) := by simpa using hlen
    simp [hlen']
  · have hx' : (if x < x0 then x0 else x) ≥ x0 := by
      split
      · exact le_rfl
      · exact le_of_not_lt (by assumption)
    have hb : findBracket (if x < x0 then x0 else x) (x0 :: xp) 0 = some 0 :=
      findBracket_cons_of_ge _ _ hx'
    simp only [if_neg hlen, hb]
    rcases h1 : (x0 :: xp).get? 0 with _ | xi <;>
      rcases h2 : (x0 :: xp).get? 1 with _ | xi1 <;>
        rcases h3 : yp.get? 0 with _ | yi <;>
          rcases h4 : yp.get? 1 with _ | yi1 <;>
            simp

/-- `interp_height` on a nonempty profile never returns absent. -/
theorem interp_height_ne_absent (p : VadProfile) (h : p.prof ≠ []) (x : ℝ) :
    p.interp_height x ≠ WRes.absent := by
  obtain ⟨l⟩ := p
  cases l with
  | nil => exact absurd rfl h
  | cons m0 rest =>
    have halt : VadProfile.altitude ⟨m0 :: rest⟩
        = m0.altitude :: rest.map (·.altitude) := by
      simp [VadProfile.altitude]
    simp only [VadProfile.interp_height, halt]
    rcases hu : interp x (m0.altitude :: rest.map (·.altitude)) (VadProfile.u ⟨m0 :: rest⟩) with
      uu | _ | _
    · rcases hv : interp x (m0.altitude :: rest.map (·.altitude)) (VadProfile.v ⟨m0 :: rest⟩) with
        vv | _ | _
      · simp [hu, hv]
      · exact absurd hv (interp_ne_absent _ _ _ _)
      · simp [hu, hv]
    · exact absurd hu (interp_ne_absent _ _ _ _)
    · simp [hu]

/-- C5: `wind_shear(bot, top)` is absent on the empty profile; when both
interpolations succeed it is exactly the polar form of the raw component
difference `interp_height(top) − interp_height(bot)` (no division by the
height interval); and it is absent whenever either interpolation is
absent. -/
theorem c5_wind_shear (p : VadProfile) (bot top : ℝ) :
    (p.prof = [] → p.wind_shear bot top = WRes.absent) ∧
    (∀ ct cb, p.interp_height top = WRes.ok ct → p.interp_height bot = WRes.ok cb →
      p.wind_shear bot top = WRes.ok (Comp.toVector (ct.sub cb))) ∧
    ((p.interp_height top = WRes.absent ∨ p.interp_height bot = WRes.absent) →
      p.wind_shear bot top = WRes.absent) := by
  obtain ⟨l⟩ := p
  refine ⟨?_, ?_, ?_⟩
  · intro h
    cases l with
    | nil => rfl
    | cons m0 rest => exact absurd h (by simp)
  · intro ct cb htop hbot
    cases l with
    | nil =>
      exact absurd htop (by simp [VadProfile.interp_height, interp, VadProfile.altitude,
        VadProfile.u, VadProfile.v])
    | cons m0 rest =>
      simp only [VadProfile.wind_shear, htop, hbot]
  · intro h
    cases l with
    | nil => rfl
    | cons m0 rest =>
      rcases h with h | h <;>
        exact absurd h (interp_height_ne_absent _ (by simp) _)

/-- C5 (witness): on a concrete two-point profile with zero wind speed,
both interpolations succeed and the shear is the polar form of the
component difference. -/
theorem c5_witness :
    VadProfile.wind_shear ⟨[⟨0, 0, 0⟩, ⟨0, 0, 1⟩]⟩ (1 / 5) (1 / 2) =
      WRes.ok (Comp.toVector (Comp.sub ⟨0, 0⟩ ⟨0, 0⟩)) := by
  have halt : VadProfile.altitude ⟨[⟨0, 0, 0⟩, ⟨0, 0, 1⟩]⟩ = [0, 1] := by
    simp [VadProfile.altitude]
  have hu : VadProfile.u ⟨[⟨0, 0, 0⟩, ⟨0, 0, 1⟩]⟩ = [0, 0] := by
    simp [VadProfile.u]
  have hv : VadProfile.v ⟨[⟨0, 0, 0⟩, ⟨0, 0, 1⟩]⟩ = [0, 0] := by
    simp [VadProfile.v]
  have hint : ∀ x : ℝ, 0 ≤ x → interp x [0, 1] [0, 0] = WRes.ok 0 := by
    intro x hx
    rw [show ([0, 1] : List ℝ) = 0 :: 1 :: [] from rfl,
      show ([0, 0] : List ℝ) = 0 :: 0 :: [] from rfl, interp_eval _ _ _ _ _ _ _ rfl]
    norm_num
  have htop : VadProfile.interp_height ⟨[⟨0, 0, 0⟩, ⟨0, 0, 1⟩]⟩ (1 / 2) = WRes.ok ⟨0, 0⟩ := by
    simp only [VadProfile.interp_height, halt, hu, hv, hint (1 / 2) (by norm_num)]
  have hbot : VadProfile.interp_height ⟨[⟨0, 0, 0⟩, ⟨0, 0, 1⟩]⟩ (1 / 5) = WRes.ok ⟨0, 0⟩ := by
    simp only [VadProfile.interp_height, halt, hu, hv, hint (1 / 5) (by norm_num)]
  exact (c5_wind_shear ⟨[⟨0, 0, 0⟩, ⟨0, 0, 1⟩]⟩ (1 / 5) (1 / 2)).2.1 ⟨0, 0⟩ ⟨0, 0⟩ htop hbot

/-- C9: `mean_wind(top)` returns absent when the profile is empty or when
`top` is at or above every observed altitude (in particular the maximum). -/
theorem c9_mean_wind_absent (p : VadProfile) (top : ℝ)
    (h : p.prof = [] ∨ ∀ m ∈ p.prof, m.altitude ≤ top) :
    p.mean_wind top = WRes.absent := by
  obtain ⟨l⟩ := p
  cases l with
  | nil => rfl
  | cons m0 rest =>
    rcases h with h | h
    · exact absurd h (by simp)
    · have hne : VadProfile.altitude ⟨m0 :: rest⟩ ≠ [] := by
        simp [VadProfile.altitude]
      obtain ⟨lastAlt, hl⟩ : ∃ a, (VadProfile.altitude ⟨m0 :: rest⟩).getLast? = some a := by
        cases hcase : (VadProfile.altitude ⟨m0 :: rest⟩).getLast? with
        | none => exact absurd (List.getLast?_eq_none_iff.mp hcase) hne
        | some a => exact ⟨a, rfl⟩
      have hmem : lastAlt ∈ VadProfile.altitude ⟨m0 :: rest⟩ := by
        obtain ⟨hne', heq⟩ := List.mem_getLast?_eq_getLast (Option.mem_def.mpr hl)
        exact heq ▸ List.getLast_mem hne'
      obtain ⟨m, hm, hma⟩ := List.mem_map.mp hmem
      have htop : top ≥ lastAlt := hma ▸ h m hm
      simp only [VadProfile.mean_wind, hl, if_pos htop]

/-- C9 (witness): the empty profile gives an absent mean wind. -/
theorem c9_witness : VadProfile.mean_wind ⟨[]⟩ 0 = WRes.absent :=
  c9_mean_wind_absent ⟨[]⟩ 0 (Or.inl rfl)

/-- C7: converting a polar vector with positive speed to Cartesian
components and back returns the same speed and the same direction up to a
multiple of 360 degrees. -/
theorem c7_roundtrip (d s : ℝ) (_h0 : 0 ≤ d) (_h1 : d < 360) (hs : 0 < s) :
    (Vector.toComp ⟨d, s⟩).toVector.spd = s ∧
    ∃ k : ℤ, (Vector.toComp ⟨d, s⟩).toVector.dir = d + 360 * k := by
  obtain ⟨N, hN, -⟩ :=
    existsUnique_add_zsmul_mem_Ioc Real.two_pi_pos (Real.pi / 2 - toRadians d) (-Real.pi)
  rw [two_mul, neg_add_cancel_left, ← two_mul, zsmul_eq_mul] at hN
  have hcos : Real.cos (Real.pi / 2 - toRadians d + N * (2 * Real.pi))
      = Real.sin (toRadians d) := by
    rw [Real.cos_add_int_mul_two_pi, Real.cos_pi_div_two_sub]
  have hsin : Real.sin (Real.pi / 2 - toRadians d + N * (2 * Real.pi))
      = Real.cos (toRadians d) := by
    rw [Real.sin_add_int_mul_two_pi, Real.sin_pi_div_two_sub]
  have harg : atan2 (s * Real.cos (toRadians d)) (s * Real.sin (toRadians d))
      = Real.pi / 2 - toRadians d + N * (2 * Real.pi) := by
    unfold atan2
    have hmk : (⟨s * Real.sin (toRadians d), s * Real.cos (toRadians d)⟩ : ℂ)
        = (s : ℂ) * (Complex.cos ↑(Real.pi / 2 - toRadians d + N * (2 * Real.pi))
            + Complex.sin ↑(Real.pi / 2 - toRadians d + N * (2 * Real.pi)) * Complex.I) := by
      rw [← Complex.ofReal_cos, ← Complex.ofReal_sin, hcos, hsin]
      apply Complex.ext
      · simp only [Complex.mul_re, Complex.add_re, Complex.add_im, Complex.mul_im,
          Complex.I_re, Complex.I_im, Complex.ofReal_re, Complex.ofReal_im]
        ring
      · simp only [Complex.mul_re, Complex.add_re, Complex.add_im, Complex.mul_im,
          Complex.I_re, Complex.I_im, Complex.ofReal_re, Complex.ofReal_im]
        ring
    rw [hmk, Complex.arg_mul_cos_add_sin_mul_I hs hN]
  constructor
  · simp only [Vector.toComp, Comp.toVector]
    have hsq : (-s * Real.sin (toRadians d)) ^ 2 + (-s * Real.cos (toRadians d)) ^ 2
        = s ^ 2 := by
      have h := Real.sin_sq_add_cos_sq (toRadians d)
      nlinarith [h]
    rw [hsq]
    exact Real.sqrt_sq hs.le
  · refine ⟨-N, ?_⟩
    simp only [Vector.toComp, Comp.toVector]
    have hargs : -(-s * Real.cos (toRadians d)) = s * Real.cos (toRadians d) := by ring
    have hargs' : -(-s * Real.sin (toRadians d)) = s * Real.sin (toRadians d) := by ring
    rw [hargs, hargs', harg]
    unfold toDegrees toRadians
    push_cast
    field_simp
    ring

/-- C7 (witness): direction 0, speed 1. -/
theorem c7_witness :
    (Vector.toComp ⟨0, 1⟩).toVector.spd = 1 ∧
    ∃ k : ℤ, (Vector.toComp ⟨0, 1⟩).toVector.dir = 0 + 360 * k :=
  c7_roundtrip 0 1 le_rfl (by norm_num) one_pos

/-- C2 (code evaluation): on the profile with observations at altitudes
0.5 km and 7 km, both with direction 180° and speed 10, `mean_wind 6`
samples the altitudes 0.001 … 0.005 (the integers 1 … 5 of the range
divided by 1000, not the integer kilometers 1 … 5 themselves), and — with
the u/v means swapped into the wrong `Comp` slots — returns the polar
vector ⟨−90°, 10⟩ instead of ⟨180°, 10⟩, the polar form of the mean
component ⟨u = 0, v = 10⟩. -/
theorem c2_code_bug :
    meanWindSamples (1 / 2 : ℝ) 6 = [1 / 1000, 2 / 1000, 3 / 1000, 4 / 1000, 5 / 1000] ∧
    VadProfile.mean_wind ⟨[⟨180, 10, 1 / 2⟩, ⟨180, 10, 7⟩]⟩ 6 = WRes.ok ⟨-90, 10⟩ := by
  have hceil : ⌈(1 / 2 : ℝ)⌉ = 1 := by
    rw [Int.ceil_eq_iff]
    norm_num
  have hfloor : ⌊(6 : ℝ)⌋ = 6 := by
    rw [Int.floor_eq_iff]
    norm_num
  have hsamp : meanWindSamples (1 / 2 : ℝ) 6
      = [1 / 1000, 2 / 1000, 3 / 1000, 4 / 1000, 5 / 1000] := by
    simp only [meanWindSamples, hceil, hfloor]
    norm_num [toU32, List.range']
  refine ⟨hsamp, ?_⟩
  have hrad : toRadians 180 = Real.pi := by
    unfold toRadians
    ring
  have halt : VadProfile.altitude ⟨[⟨180, 10, 1 / 2⟩, ⟨180, 10, 7⟩]⟩ = [1 / 2, 7] := by
    simp [VadProfile.altitude]
  have hu : VadProfile.u ⟨[⟨180, 10, 1 / 2⟩, ⟨180, 10, 7⟩]⟩ = [0, 0] := by
    simp [VadProfile.u, hrad]
  have hv : VadProfile.v ⟨[⟨180, 10, 1 / 2⟩, ⟨180, 10, 7⟩]⟩ = [10, 10] := by
    simp [VadProfile.v, hrad, Real.cos_pi]
  have hih : ∀ x : ℝ, VadProfile.interp_height ⟨[⟨180, 10, 1 / 2⟩, ⟨180, 10, 7⟩]⟩ x
      = WRes.ok ⟨0, 10⟩ := by
    intro x
    have hiu : interp x [1 / 2, 7] [0, 0] = WRes.ok 0 := by
      rw [show ([1 / 2, 7] : List ℝ) = (1 / 2) :: 7 :: [] from rfl,
        show ([0, 0] : List ℝ) = 0 :: 0 :: [] from rfl, interp_eval _ _ _ _ _ _ _ rfl]
      norm_num
    have hiv : interp x [1 / 2, 7] [10, 10] = WRes.ok 10 := by
      rw [show ([1 / 2, 7] : List ℝ) = (1 / 2) :: 7 :: [] from rfl,
        show ([10, 10] : List ℝ) = 10 :: 10 :: [] from rfl, interp_eval _ _ _ _ _ _ _ rfl]
      norm_num
    simp only [VadProfile.interp_height, halt, hu, hv, hiu, hiv]
  have hsc : sampleComps ⟨[⟨180, 10, 1 / 2⟩, ⟨180, 10, 7⟩]⟩
      [1 / 1000, 2 / 1000, 3 / 1000, 4 / 1000, 5 / 1000]
      = WRes.ok [⟨0, 10⟩, ⟨0, 10⟩, ⟨0, 10⟩, ⟨0, 10⟩, ⟨0, 10⟩] := by
    simp only [sampleComps, hih]
  have hvec10 : Comp.toVector ⟨10, 0⟩ = (⟨-90, 10⟩ : Vector) := by
    unfold Comp.toVector
    have harg : atan2 (-(0 : ℝ)) (-(10 : ℝ)) = Real.pi := by
      unfold atan2
      have hre : (⟨-10, -0⟩ : ℂ) = ((-10 : ℝ) : ℂ) := by
        apply Complex.ext <;> simp
      rw [hre, Complex.arg_ofReal_of_neg (by norm_num : (-10 : ℝ) < 0)]
    have hsqrt : Real.sqrt ((10 : ℝ) ^ 2 + 0 ^ 2) = 10 := by
      rw [show (10 : ℝ) ^ 2 + 0 ^ 2 = 10 ^ 2 by norm_num,
        Real.sqrt_sq (by norm_num : (0 : ℝ) ≤ 10)]
    have hdeg : toDegrees Real.pi = 180 := by
      unfold toDegrees
      field_simp
    simp only [Comp.u, Comp.v, harg, hdeg, hsqrt]
    norm_num
  have h67 : ¬ (6 : ℝ) ≥ 7 := by norm_num
  have hlast : ([1 / 2, 7] : List ℝ).getLast? = some 7 := rfl
  simp only [VadProfile.mean_wind, halt, hsamp, hlast, hsc, h67, if_false]
  have hcomp : (⟨(List.map Comp.v [(⟨0, 10⟩ : Comp), ⟨0, 10⟩, ⟨0, 10⟩, ⟨0, 10⟩, ⟨0, 10⟩]).sum
        / (([(1 : ℝ) / 1000, 2 / 1000, 3 / 1000, 4 / 1000, 5 / 1000].length : ℕ) : ℝ),
      (List.map Comp.u [(⟨0, 10⟩ : Comp), ⟨0, 10⟩, ⟨0, 10⟩, ⟨0, 10⟩, ⟨0, 10⟩]).sum
        / (([(1 : ℝ) / 1000, 2 / 1000, 3 / 1000, 4 / 1000, 5 / 1000].length : ℕ) : ℝ)⟩ : Comp)
      = (⟨10, 0⟩ : Comp) := by
    norm_num [Comp.u, Comp.v]
  rw [hcomp, hvec10]

/-- The page-collection loop never produces a `?`-returned error: its only
failure mode is an aborting index. -/
theorem collectVadLines_ne_error (pages : List Page) :
    ∀ e, collectVadLines pages ≠ DRes.error e := by
  induction pages with
  | nil => intro e; simp [collectVadLines]
  | cons page rest ih =>
    intro e
    cases page with
    | nil => simp [collectVadLines]
    | cons l0 ls =>
      simp only [collectVadLines]
      by_cases h : vadHeader.isPrefixOf (trim l0)
      · simp only [if_pos h]
        by_cases h3 : (l0 :: ls).length < 3
        · rw [if_pos h3]
          simp
        · rw [if_neg h3]
          cases hc : collectVadLines rest with
          | ok ls' => simp
          | error e' => exact absurd hc (ih e')
          | panic => simp
      · simp only [if_neg h]
        exact ih e

/-- The only `?`-returned error of `parseLine` is the field-parse error. -/
theorem parseLine_error_eq (l : Line) (e : DErr) (h : parseLine l = DRes.error e) :
    e = DErr.fieldParseError := by
  simp only [parseLine] at h
  repeat' split at h
  all_goals simp_all

/-- The only `?`-returned error of the data-line loop is the field-parse
error. -/
theorem parseLines_error_eq :
    ∀ (ls : List Line) (e : DErr), parseLines ls = DRes.error e → e = DErr.fieldParseError := by
  intro ls
  induction ls with
  | nil =>
    intro e h
    simp [parseLines] at h
  | cons l rest ih =>
    intro e h
    simp only [parseLines] at h
    cases hp : parseLine l with
    | ok m =>
      rw [hp] at h
      cases hr : parseLines rest with
      | ok ms => rw [hr] at h; simp at h
      | error e' =>
        rw [hr] at h
        simp only [DRes.error.injEq] at h
        exact h ▸ ih e' hr
      | panic => rw [hr] at h; simp at h
    | error e' =>
      rw [hp] at h
      simp only [DRes.error.injEq] at h
      exact h ▸ parseLine_error_eq l e' hp
    | panic => rw [hp] at h; simp at h

/-- C10: profile extraction is not total.  A one-line page whose first
line starts with the VAD marker aborts with an out-of-bounds slice; a
data line with only nine whitespace-separated fields aborts with an
out-of-bounds index; a malformed numeric token instead produces the
`?`-returned field-parse error; and the field-parse error is the only
error value `get_data` ever returns. -/
theorem c10_partiality :
    get_data [["VAD Algorithm Output".toList]] = DRes.panic ∧
    get_data [["VAD Algorithm Output".toList, [], [],
      "0 0 0 0 180 20 0 0 10.0".toList]] = DRes.panic ∧
    get_data [["VAD Algorithm Output".toList, [], [],
      "0 0 0 0 abc 20 0 0 10.0 5.0".toList]] = DRes.error DErr.fieldParseError ∧
    ∀ pages e, get_data pages = DRes.error e → e = DErr.fieldParseError := by
  refine ⟨rfl, rfl, rfl, ?_⟩
  intro pages e h
  unfold get_data at h
  cases hc : collectVadLines pages with
  | ok lines =>
    rw [hc] at h
    cases hp : parseLines lines with
    | ok msgs => simp [hp] at h
    | error e' =>
      simp only [hp, DRes.error.injEq] at h
      exact h ▸ parseLines_error_eq lines e' hp
    | panic => simp [hp] at h
  | error e' => exact absurd hc (collectVadLines_ne_error pages e')
  | panic => rw [hc] at h; simp at h

/-- C10 (witness): the general error-classification component of the claim
applied to the concrete malformed-token page. -/
theorem c10_witness : DErr.fieldParseError = DErr.fieldParseError :=
  c10_partiality.2.2.2 [["VAD Algorithm Output".toList, [], [],
    "0 0 0 0 abc 20 0 0 10.0 5.0".toList]] DErr.fieldParseError c10_partiality.2.2.1

/-- C6: a VAD page whose single data line splits into ten fields yields
exactly one observation: field 4 is the direction, field 5 the speed (no
unit conversion), field 8 the slant range converted by 6076.1/3281, field
9 the elevation angle, and the altitude is the 4/3-earth-radius
refraction formula applied to the converted slant range and elevation. -/
theorem c6_fields (l0 lh1 lh2 line : Line) (t0 t1 t2 t3 t4 t5 t6 t7 t8 t9 : List Char)
    (d s r e : ℚ)
    (hvad : vadHeader.isPrefixOf (trim l0) = true)
    (hsplit : splitWhitespace line = [t0, t1, t2, t3, t4, t5, t6, t7, t8, t9])
    (h4 : parseF t4 = some d) (h5 : parseF t5 = some s)
    (h8 : parseF t8 = some r) (h9 : parseF t9 = some e) :
    get_data [[l0, lh1, lh2, line]] =
      DRes.ok ⟨[⟨(d : ℝ), (s : ℝ), vadAltitude ((r : ℝ) * 6076.1 / 3281) (e : ℝ)⟩]⟩ := by
  have hcollect : collectVadLines [[l0, lh1, lh2, line]] = DRes.ok [line] := by
    simp [collectVadLines, hvad]
  have hline : parseLine line =
      DRes.ok ⟨(d : ℝ), (s : ℝ), vadAltitude ((r : ℝ) * 6076.1 / 3281) (e : ℝ)⟩ := by
    simp only [parseLine, hsplit]
    simp [List.get?, h4, h5, h8, h9]
  have hparse : parseLines [line] =
      DRes.ok [⟨(d : ℝ), (s : ℝ), vadAltitude ((r : ℝ) * 6076.1 / 3281) (e : ℝ)⟩] := by
    simp only [parseLines, hline]
  unfold get_data
  simp only [hcollect, hparse]
  simp [List.insertionSort, List.orderedInsert]

/-- `str::parse::<f32>` on the concrete tokens of the scenario-B data line. -/
theorem parseF_scenario :
    parseF "180".toList = some 180 ∧ parseF "20".toList = some 20 ∧
    parseF "10.0".toList = some 10 ∧ parseF "5.0".toList = some 5 := by
  refine ⟨?_, ?_, ?_, ?_⟩
  · have h : parseF "180".toList
        = some (1 * (digitsVal ['1', '8', '0'] : ℚ) * (10 : ℚ) ^ (0 : ℤ)) := rfl
    rw [h, show digitsVal ['1', '8', '0'] = 180 from by decide]
    norm_num
  · have h : parseF "20".toList
        = some (1 * (digitsVal ['2', '0'] : ℚ) * (10 : ℚ) ^ (0 : ℤ)) := rfl
    rw [h, show digitsVal ['2', '0'] = 20 from by decide]
    norm_num
  · have h : parseF "10.0".toList
        = some (1 * ((digitsVal ['1', '0'] : ℚ) + (digitsVal ['0'] : ℚ)
            / 10 ^ (['0'] : List Char).length) * (10 : ℚ) ^ (0 : ℤ)) := rfl
    rw [h, show digitsVal ['1', '0'] = 10 from by decide,
      show digitsVal ['0'] = 0 from by decide]
    norm_num
  · have h : parseF "5.0".toList
        = some (1 * ((digitsVal ['5'] : ℚ) + (digitsVal ['0'] : ℚ)
            / 10 ^ (['0'] : List Char).length) * (10 : ℚ) ^ (0 : ℤ)) := rfl
    rw [h, show digitsVal ['5'] = 5 from by decide,
      show digitsVal ['0'] = 0 from by decide]
    norm_num

/-- C6 (witness): the concrete scenario-B page yields exactly one
observation with direction 180, speed 20, and the refraction-formula
altitude at slant range 10 nm (converted) and elevation 5°. -/
theorem c6_witness :
    get_data [["VAD Algorithm Output page 1".toList, "header".toList, "header".toList,
      "0 0 0 0 180 20 0 0 10.0 5.0".toList]] =
      DRes.ok ⟨[⟨180, 20, vadAltitude (10 * 6076.1 / 3281) 5⟩]⟩ := by
  have h := c6_fields "VAD Algorithm Output page 1".toList "header".toList "header".toList
    "0 0 0 0 180 20 0 0 10.0 5.0".toList
    ['0'] ['0'] ['0'] ['0'] ['1', '8', '0'] ['2', '0'] ['0'] ['0']
    ['1', '0', '.', '0'] ['5', '.', '0'] 180 20 10 5
    (by decide) (by decide)
    parseF_scenario.1 parseF_scenario.2.1 parseF_scenario.2.2.1 parseF_scenario.2.2.2
  rw [h]
  norm_num

/-! ## Decoder lemmas -/

theorem DecodeM.bind_ok {α β : Type} {m : DecodeM α} {s t : List ℕ} {a : α}
    (h : m s = Except.ok (a, t)) (f : α → DecodeM β) :
    (m >>= f) s = f a t := by
  rw [DecodeM.bind_apply, h]

theorem DecodeM.bind_err {α β : Type} {m : DecodeM α} {s : List ℕ} {e : DErr}
    (h : m s = Except.error e) (f : α → DecodeM β) :
    (m >>= f) s = Except.error e := by
  rw [DecodeM.bind_apply, h]

theorem readBytes_of_le (n : ℕ) (s : List ℕ) (h : n ≤ s.length) :
    readBytes n s = Except.ok (s.take n, s.drop n) := by
  simp [readBytes, h]

theorem readBytes_append (n : ℕ) (a r : List ℕ) (h : a.length = n) :
    readBytes n (a ++ r) = Except.ok (a, r) := by
  subst h
  simp [readBytes, List.take_left, List.drop_left]

theorem readI8_of_le (s : List ℕ) (h : 1 ≤ s.length) :
    readI8 s = Except.ok (toSigned 8 (beNat (s.take 1)), s.drop 1) := by
  unfold readI8
  rw [DecodeM.bind_ok (readBytes_of_le 1 s h)]
  rfl

theorem readI16_of_le (s : List ℕ) (h : 2 ≤ s.length) :
    readI16 s = Except.ok (toSigned 16 (beNat (s.take 2)), s.drop 2) := by
  unfold readI16
  rw [DecodeM.bind_ok (readBytes_of_le 2 s h)]
  rfl

theorem readI32_of_le (s : List ℕ) (h : 4 ≤ s.length) :
    readI32 s = Except.ok (toSigned 32 (beNat (s.take 4)), s.drop 4) := by
  unfold readI32
  rw [DecodeM.bind_ok (readBytes_of_le 4 s h)]
  rfl

theorem readI8_append (a r : List ℕ) (h : a.length = 1) :
    readI8 (a ++ r) = Except.ok (toSigned 8 (beNat a), r) := by
  unfold readI8
  rw [DecodeM.bind_ok (readBytes_append 1 a r h)]
  rfl

theorem readI16_append (a r : List ℕ) (h : a.length = 2) :
    readI16 (a ++ r) = Except.ok (toSigned 16 (beNat a), r) := by
  unfold readI16
  rw [DecodeM.bind_ok (readBytes_append 2 a r h)]
  rfl

theorem readI32_append (a r : List ℕ) (h : a.length = 4) :
    readI32 (a ++ r) = Except.ok (toSigned 32 (beNat a), r) := by
  unfold readI32
  rw [DecodeM.bind_ok (readBytes_append 4 a r h)]
  rfl

theorem readI16_cons (b0 b1 : ℕ) (r : List ℕ) :
    readI16 (b0 :: b1 :: r) = Except.ok (toSigned 16 (beNat [b0, b1]), r) := by
  simpa using readI16_append [b0, b1] r rfl

theorem read_headers_of_le (s : List ℕ) (h : 48 ≤ s.length) :
    read_headers s = Except.ok ((), s.drop 48) := by
  unfold read_headers
  simp only [DecodeM.bind_ok (readBytes_of_le 30 s (by omega)),
    DecodeM.bind_ok (readI16_of_le (s.drop 30) (by simp; omega)),
    DecodeM.bind_ok (readI16_of_le ((s.drop 30).drop 2) (by simp; omega)),
    DecodeM.bind_ok (readI32_of_le (((s.drop 30).drop 2).drop 2) (by simp; omega)),
    DecodeM.bind_ok (readI32_of_le ((((s.drop 30).drop 2).drop 2).drop 4) (by simp; omega)),
    DecodeM.bind_ok (readI16_of_le (((((s.drop 30).drop 2).drop 2).drop 4).drop 4)
      (by simp; omega)),
    DecodeM.bind_ok (readI16_of_le ((((((s.drop 30).drop 2).drop 2).drop 4).drop 4).drop 2)
      (by simp; omega)),
    DecodeM.bind_ok (readI16_of_le (((((((s.drop 30).drop 2).drop 2).drop 4).drop 4).drop
      2).drop 2) (by simp; omega)),
    DecodeM.pure_apply]
  simp [List.drop_drop]

theorem read_headers_append (a r : List ℕ) (h : a.length = 48) :
    read_headers (a ++ r) = Except.ok ((), r) := by
  rw [read_headers_of_le (a ++ r) (by simp [h])]
  rw [show (48 : ℕ) = a.length from h.symm, List.drop_left]

/-- `read_desc_block` on a stream whose product-code field is not 48 fails
with the fatal product-code mismatch, regardless of everything after the
product code. -/
theorem read_desc_block_bad (sep lat lon elev : List ℕ) (p0 p1 : ℕ) (rest : List ℕ)
    (hsep : sep.length = 2) (hlat : lat.length = 4) (hlon : lon.length = 4)
    (helev : elev.length = 2)
    (hcode : toSigned 16 (beNat [p0, p1]) ≠ 48) :
    read_desc_block (sep ++ lat ++ lon ++ elev ++ p0 :: p1 :: rest) =
      Except.error DErr.productCodeMismatch := by
  have e1 := readI16_append sep (lat ++ (lon ++ (elev ++ p0 :: p1 :: rest))) hsep
  have e2 := readI32_append lat (lon ++ (elev ++ p0 :: p1 :: rest)) hlat
  have e3 := readI32_append lon (elev ++ p0 :: p1 :: rest) hlon
  have e4 := readI16_append elev (p0 :: p1 :: rest) helev
  have e5 := readI16_cons p0 p1 rest
  unfold read_desc_block
  simp only [List.append_assoc, DecodeM.bind_ok e1, DecodeM.bind_ok e2, DecodeM.bind_ok e3,
    DecodeM.bind_ok e4, DecodeM.bind_ok e5]
  rw [if_pos hcode]
  rfl

/-- C3: a stream whose description block carries a product code other
than 48 fails with the fatal `productCodeMismatch`: no further block is
decoded (the result does not depend on the bytes after the product code)
and no `VadFile` is produced. -/
theorem c3_product_code_mismatch (hdr sep lat lon elev : List ℕ) (p0 p1 : ℕ) (rest : List ℕ)
    (hhdr : hdr.length = 48) (hsep : sep.length = 2) (hlat : lat.length = 4)
    (hlon : lon.length = 4) (helev : elev.length = 2)
    (hcode : toSigned 16 (beNat [p0, p1]) ≠ 48) :
    from_reader (hdr ++ sep ++ lat ++ lon ++ elev ++ p0 :: p1 :: rest) =
      DRes.error DErr.productCodeMismatch := by
  have h1 := read_headers_append hdr (sep ++ lat ++ lon ++ elev ++ p0 :: p1 :: rest) hhdr
  have h2 := read_desc_block_bad sep lat lon elev p0 p1 rest hsep hlat hlon helev hcode
  unfold from_reader decodeStream
  rw [show hdr ++ sep ++ lat ++ lon ++ elev ++ p0 :: p1 :: rest
      = hdr ++ (sep ++ lat ++ lon ++ elev ++ p0 :: p1 :: rest) by
    simp [List.append_assoc]]
  simp only [DecodeM.bind_ok h1, DecodeM.bind_err h2]

/-- C3 (witness): a concrete stream carrying product code 47. -/
theorem c3_witness :
    from_reader (List.replicate 48 0 ++ [0, 0] ++ [0, 0, 0, 0] ++ [0, 0, 0, 0] ++ [0, 0]
        ++ 0 :: 47 :: []) = DRes.error DErr.productCodeMismatch :=
  c3_product_code_mismatch (List.replicate 48 0) [0, 0] [0, 0, 0, 0] [0, 0, 0, 0] [0, 0]
    0 47 [] (by simp) rfl rfl rfl rfl (by decide)

/-- The big-endian value of a byte list is bounded by 256 to its length. -/
theorem beNat_foldl_lt (bs : List ℕ) :
    ∀ acc : ℕ, List.foldl (fun acc b => acc * 256 + b % 256) acc bs
      < (acc + 1) * 256 ^ bs.length := by
  induction bs with
  | nil => intro acc; simp
  | cons b bs ih =>
    intro acc
    simp only [List.foldl_cons, List.length_cons]
    calc List.foldl (fun acc b => acc * 256 + b % 256) (acc * 256 + b % 256) bs
        < (acc * 256 + b % 256 + 1) * 256 ^ bs.length := ih _
      _ ≤ ((acc + 1) * 256) * 256 ^ bs.length :=
          Nat.mul_le_mul_right _ (by omega)
      _ = (acc + 1) * 256 ^ (bs.length + 1) := by ring

theorem beNat_lt (bs : List ℕ) : beNat bs < 256 ^ bs.length := by
  have h := beNat_foldl_lt bs 0
  simpa [beNat] using h

/-- A nonnegative 32-bit signed value reinterpreted `as usize` is itself. -/
theorem toUsize_toSigned32_of_nonneg (v : ℕ) (hv : v < 2 ^ 32)
    (hnn : 0 ≤ toSigned 32 v) : toUsize (toSigned 32 v) = v := by
  unfold toSigned at hnn ⊢
  unfold toUsize
  by_cases hc : v < 2 ^ (32 - 1)
  · rw [if_pos hc]
    omega
  · rw [if_neg hc] at hnn
    exfalso
    omega

/-- A negative 32-bit signed value reinterpreted `as usize` sign-extends
to at least `2^64 − 2^31`; even rounded down to a multiple of two it
exceeds `isize::MAX`. -/
theorem toUsize_toSigned32_of_neg (v : ℕ) (hv : v < 2 ^ 32)
    (hneg : toSigned 32 v < 0) : 2 ^ 63 - 1 < toUsize (toSigned 32 v) / 2 * 2 := by
  unfold toSigned at hneg ⊢
  unfold toUsize
  by_cases hc : v < 2 ^ (32 - 1)
  · rw [if_pos hc] at hneg
    exfalso
    omega
  · rw [if_neg hc] at hneg
    rw [if_neg hc]
    omega

/-- C8 (amended): after the layer payload byte-count field `pb`, the
symbology decoder behaves as follows.  For a nonnegative payload count it
consumes up to `(payload as usize / 2) * 2` bytes — exactly that many
when the stream is long enough, and only what remains otherwise — and
always succeeds: the `read_vec!` macro uses `Read::read`, which does not
fail on a short read.  For a negative payload count, `as usize`
sign-extends the count and the `vec![0u8; …]` allocation aborts with a
capacity-overflow panic, so decoding never reaches the payload at all. -/
theorem c8_amended (b0 b1 : ℕ) (bl nl ls pb r : List ℕ)
    (hbl : bl.length = 4) (hnl : nl.length = 2) (hls : ls.length = 2) (hpb : pb.length = 4) :
    (0 ≤ toSigned 32 (beNat pb) →
      read_symbology ([b0, b1] ++ [0, 1] ++ bl ++ nl ++ ls ++ pb ++ r) =
        Except.ok ((), r.drop (toUsize (toSigned 32 (beNat pb)) / 2 * 2))) ∧
    (toSigned 32 (beNat pb) < 0 →
      read_symbology ([b0, b1] ++ [0, 1] ++ bl ++ nl ++ ls ++ pb ++ r) =
        Except.error DErr.capacityOverflow) := by
  have hv : beNat pb < 2 ^ 32 := by
    have h := beNat_lt pb
    rw [hpb] at h
    exact lt_of_lt_of_le h (by norm_num)
  have e1 := readI16_cons b0 b1 (0 :: 1 :: (bl ++ (nl ++ (ls ++ (pb ++ r)))))
  have e2 := readI16_cons 0 1 (bl ++ (nl ++ (ls ++ (pb ++ r))))
  have e3 := readI32_append bl (nl ++ (ls ++ (pb ++ r))) hbl
  have e4 := readI16_append nl (ls ++ (pb ++ r)) hnl
  have e5 := readI16_append ls (pb ++ r) hls
  have e6 := readI32_append pb r hpb
  have hid : toSigned 16 (beNat [0, 1]) = 1 := by decide
  constructor
  · intro hnn
    have hle : toUsize (toSigned 32 (beNat pb)) / 2 * 2 ≤ 2 ^ 63 - 1 := by
      rw [toUsize_toSigned32_of_nonneg (beNat pb) hv hnn]
      omega
    have e7 : readUpTo (toUsize (toSigned 32 (beNat pb)) / 2 * 2) r
        = Except.ok (r.take (toUsize (toSigned 32 (beNat pb)) / 2 * 2),
            r.drop (toUsize (toSigned 32 (beNat pb)) / 2 * 2)) := by
      unfold readUpTo
      rw [if_pos hle]
    unfold read_symbology
    simp only [List.append_assoc, List.cons_append, List.nil_append,
      DecodeM.bind_ok e1, DecodeM.bind_ok e2, hid, if_neg (by norm_num : ¬ (1 : ℤ) ≠ 1),
      DecodeM.bind_ok e3, DecodeM.bind_ok e4, DecodeM.bind_ok e5, DecodeM.bind_ok e6,
      DecodeM.bind_ok e7, DecodeM.pure_apply]
  · intro hneg
    have hgt : 2 ^ 63 - 1 < toUsize (toSigned 32 (beNat pb)) / 2 * 2 :=
      toUsize_toSigned32_of_neg (beNat pb) hv hneg
    have e7 : readUpTo (toUsize (toSigned 32 (beNat pb)) / 2 * 2) r
        = Except.error DErr.capacityOverflow := by
      unfold readUpTo
      rw [if_neg (by omega)]
    unfold read_symbology
    simp only [List.append_assoc, List.cons_append, List.nil_append,
      DecodeM.bind_ok e1, DecodeM.bind_ok e2, hid, if_neg (by norm_num : ¬ (1 : ℤ) ≠ 1),
      DecodeM.bind_ok e3, DecodeM.bind_ok e4, DecodeM.bind_ok e5, DecodeM.bind_ok e6,
      DecodeM.bind_err e7]

/-- C8 (counterexample): a symbology block declaring a 10-byte layer
payload over a stream holding only 4 further bytes does NOT fail with
`truncatedInput` — it consumes what remains and succeeds. -/
theorem c8_counterexample :
    read_symbology [0, 0, 0, 1, 0, 0, 0, 0, 0, 0, 0, 0, 0, 0, 0, 10, 9, 9, 9, 9] =
      Except.ok ((), []) ∧
    read_symbology [0, 0, 0, 1, 0, 0, 0, 0, 0, 0, 0, 0, 0, 0, 0, 10, 9, 9, 9, 9] ≠
      Except.error DErr.truncatedInput := by
  refine ⟨rfl, ?_⟩
  intro h
  exact Except.noConfusion (rfl.symm.trans h : (Except.ok ((), []) : Except DErr (Unit × List ℕ)) = _)

/-- C8 (witness): with a 4-byte payload and 5 bytes remaining, exactly 4
bytes are consumed; with a negative payload count the allocation aborts
with the capacity-overflow panic. -/
theorem c8_witness :
    read_symbology ([0, 0] ++ [0, 1] ++ [0, 0, 0, 0] ++ [0, 0] ++ [0, 0] ++ [0, 0, 0, 4]
      ++ [1, 2, 3, 4, 5]) = Except.ok ((), [5]) ∧
    read_symbology ([0, 0] ++ [0, 1] ++ [0, 0, 0, 0] ++ [0, 0] ++ [0, 0]
      ++ [255, 255, 255, 255] ++ [1, 2]) = Except.error DErr.capacityOverflow := by
  constructor
  · have h := (c8_amended 0 0 [0, 0, 0, 0] [0, 0] [0, 0] [0, 0, 0, 4] [1, 2, 3, 4, 5]
      rfl rfl rfl rfl).1 (by decide)
    rw [h]
    rfl
  · exact (c8_amended 0 0 [0, 0, 0, 0] [0, 0] [0, 0] [255, 255, 255, 255] [1, 2]
      rfl rfl rfl rfl).2 (by decide)

instance : IsTotal VadMessage (fun a b => a.altitude ≤ b.altitude) :=
  ⟨fun a b => le_total a.altitude b.altitude⟩

instance : IsTrans VadMessage (fun a b => a.altitude ≤ b.altitude) :=
  ⟨fun _ _ _ hab hbc => le_trans hab hbc⟩

/-- Every profile `get_data` returns is sorted non-decreasing by altitude:
its final step is a stable sort on the altitude key. -/
theorem get_data_sorted (pages : List Page) (p : VadProfile)
    (h : get_data pages = DRes.ok p) :
    p.prof.Sorted (fun a b => a.altitude ≤ b.altitude) := by
  unfold get_data at h
  cases hc : collectVadLines pages with
  | error e => rw [hc] at h; simp at h
  | panic => rw [hc] at h; simp at h
  | ok lines =>
    rw [hc] at h
    cases hp : parseLines lines with
    | error e => simp [hp] at h
    | panic => simp [hp] at h
    | ok msgs =>
      simp only [hp, DRes.ok.injEq] at h
      subst h
      exact List.sorted_insertionSort _ msgs

/-- C4: the observations of every successfully decoded byte stream are
sorted non-decreasing by altitude. -/
theorem c4_sorted (s : List ℕ) (vf : VadFile) (h : from_reader s = DRes.ok vf) :
    vf.data.prof.Sorted (fun a b => a.altitude ≤ b.altitude) := by
  unfold from_reader at h
  cases hd : decodeStream s with
  | error e => rw [hd] at h; simp at h
  | ok val =>
    obtain ⟨⟨⟨time, loc, hb⟩, pages⟩, rest⟩ := val
    rw [hd] at h
    cases hg : get_data pages with
    | error e => simp [hg] at h
    | panic => simp [hg] at h
    | ok p =>
      simp only [hg, DRes.ok.injEq] at h
      subst h
      exact get_data_sorted pages p hg

/-- A concrete well-formed product-48 stream: 48 header bytes, a
description block with product code 48, no symbology block, tabular
offset 1, and a one-page tabular block whose VAD page holds exactly the
three header lines (so the extracted profile is empty). -/
def c4Stream : List ℕ :=
  List.replicate 48 0 ++
  ([0, 0] ++ [0, 0, 0, 0] ++ [0, 0, 0, 0] ++ [0, 0] ++ [0, 48]
    ++ List.replicate 8 0 ++ List.replicate 6 0 ++ List.replicate 6 0
    ++ List.replicate 54 0 ++ [0, 0]
    ++ [0, 0, 0, 0] ++ [0, 0, 0, 0] ++ [0, 0, 0, 1]) ++
  ([0, 0] ++ [0, 3] ++ [0, 0, 0, 0] ++ List.replicate 30 0 ++ List.replicate 10 0
    ++ List.replicate 12 0 ++ List.replicate 54 0 ++ [0, 0]
    ++ List.replicate 12 0 ++ [0, 0] ++ [0, 1]) ++
  ([0, 20] ++ vadHeader.map Char.toNat ++ [0, 0] ++ [0, 0] ++ [255, 255])

set_option maxRecDepth 40000 in
/-- C4 (witness): the concrete stream decodes successfully and its
profile is sorted. -/
theorem c4_witness :
    ∃ vf, from_reader c4Stream = DRes.ok vf ∧
      vf.data.prof.Sorted (fun a b => a.altitude ≤ b.altitude) := by
  have h : from_reader c4Stream =
      DRes.ok ⟨⟨[]⟩, (((0 : ℤ) : ℝ) / 1000, ((0 : ℤ) : ℝ) / 1000), 0⟩ := by rfl
  exact ⟨_, h, c4_sorted c4Stream _ h⟩

end VWP
